import Mathlib

/-
Verification of the multiraft coordinator (package multiraft, state.go).

The coordinator multiplexes many Raft consensus groups over one transport,
one write pipeline and one coalesced heartbeat stream.  Go maps are embedded
as association lists, Go pointers to proposal objects as indices into an
explicit heap, and the external collaborators (group storage, the embedded
raft MultiNode, the transport) as pure oracles in an `Env` record.  The
multi-way select loop is embedded as a guarded transition relation.
-/

namespace Multiraft

/-- Sentinel group id used by coalesced heartbeats (math.MaxUint64). -/
def maxUint64 : Nat := 2 ^ 64 - 1

/-! ## Association lists: the embedding of Go maps -/

/-- Lookup in an association list (Go `m[k]` with the `ok` flag). -/
def alookup {κ α : Type} [DecidableEq κ] : List (κ × α) → κ → Option α
  | [], _ => none
  | (k', v) :: rest, k => if k' = k then some v else alookup rest k

/-- Insert or replace a binding (Go `m[k] = v`). -/
def ainsert {κ α : Type} [DecidableEq κ] : List (κ × α) → κ → α → List (κ × α)
  | [], k, v => [(k, v)]
  | (k', v') :: rest, k, v =>
    if k' = k then (k, v) :: rest else (k', v') :: ainsert rest k v

/-- Delete a binding (Go `delete(m, k)`). -/
def aerase {κ α : Type} [DecidableEq κ] (m : List (κ × α)) (k : κ) : List (κ × α) :=
  m.filter (fun kv => decide (kv.1 ≠ k))

/-- Modify the binding at a key, if present. -/
def amodify {κ α : Type} [DecidableEq κ] (m : List (κ × α)) (k : κ) (f : α → α) :
    List (κ × α) :=
  m.map (fun kv => if kv.1 = k then (kv.1, f kv.2) else kv)

/-- The keys of an association list. -/
def akeys {κ α : Type} (m : List (κ × α)) : List κ := m.map Prod.fst

/-- A well-formed Go map has no duplicate keys. -/
def nodupKeys {κ α : Type} (m : List (κ × α)) : Prop := (akeys m).Nodup

instance nodupKeysDecidable {κ α : Type} [DecidableEq κ] (m : List (κ × α)) :
    Decidable (nodupKeys m) := by
  unfold nodupKeys
  infer_instance

theorem alookup_ainsert_self {κ α : Type} [DecidableEq κ]
    (m : List (κ × α)) (k : κ) (v : α) : alookup (ainsert m k v) k = some v := by
  induction m with
  | nil => simp [ainsert, alookup]
  | cons kv rest ih =>
    by_cases h : kv.1 = k
    · simp [ainsert, alookup, h]
    · simpa [ainsert, alookup, h] using ih

theorem alookup_ainsert_ne {κ α : Type} [DecidableEq κ]
    (m : List (κ × α)) (k k' : κ) (v : α) (h : k ≠ k') :
    alookup (ainsert m k v) k' = alookup m k' := by
  induction m with
  | nil => simp [ainsert, alookup, h]
  | cons kv rest ih =>
    by_cases hk : kv.1 = k
    · simp [ainsert, alookup, hk, h]
    · by_cases hk' : kv.1 = k'
      · simp [ainsert, alookup, hk, hk', Ne.symm h]
      · simpa [ainsert, alookup, hk, hk'] using ih

theorem alookup_aerase_self {κ α : Type} [DecidableEq κ]
    (m : List (κ × α)) (k : κ) : alookup (aerase m k) k = none := by
  induction m with
  | nil => simp [aerase, alookup]
  | cons kv rest ih =>
    by_cases h : kv.1 = k
    · simpa [aerase, alookup, h] using ih
    · simpa [aerase, alookup, h] using ih

/-! ## Raft wire data (raftpb) -/

/-- Raft message kinds relevant to the coordinator (raftpb.MessageType). -/
inductive MsgType : Type
  | MsgHeartbeat
  | MsgHeartbeatResp
  | MsgApp
  | MsgVote
  | MsgSnap
  deriving DecidableEq, Repr

/-- A raft message (raftpb.Message restricted to the fields the coordinator
reads; `msgType` embeds the Go field `Type`). -/
structure Message : Type where
  From : Nat
  To : Nat
  msgType : MsgType
  deriving DecidableEq, Repr

/-- The transport envelope (RaftMessageRequest). -/
structure RaftMessageRequest : Type where
  groupID : Nat
  message : Message
  deriving DecidableEq, Repr

/-- A committed log entry as the commit path reads it: its term and the
command id decoded from its data ("" for the nil entries raft adds, which
carry no command). -/
structure Entry : Type where
  term : Nat
  index : Nat
  commandID : String
  deriving DecidableEq, Repr

/-- A raft.Ready restricted to the fields the coordinator reads: the new
SoftState's leader (if a SoftState was delivered), the committed entries and
the outbound messages. -/
structure Ready : Type where
  softState : Option Nat
  committedEntries : List Entry
  messages : List Message
  deriving DecidableEq, Repr

/-- The map from group id to raft.Ready delivered by MultiNode.Ready(). -/
abbrev ReadyMap : Type := List (Nat × Ready)

/-! ## Coordinator data model -/

/-- A pending proposal object (struct proposal).  `hasCh` embeds whether the
`ch` field is currently non-nil; the propose thunk `fn` is recorded by id
when invoked. -/
structure Proposal : Type where
  groupID : Nat
  commandID : String
  hasCh : Bool
  deriving DecidableEq, Repr

/-- Per-group soft state (struct group).  `pending` maps a command id to the
heap index of the shared proposal object. -/
structure Group : Type where
  committedTerm : Nat
  leader : Nat
  pending : List (String × Nat)
  deriving DecidableEq, Repr

/-- A remote peer record (struct node). -/
structure Node : Type where
  refCount : Nat
  groupIDs : List Nat
  deriving DecidableEq, Repr

/-- node.registerGroup: add to the group-id set. -/
def registerGroup (n : Node) (groupID : Nat) : Node :=
  if groupID ∈ n.groupIDs then n else { n with groupIDs := groupID :: n.groupIDs }

/-- node.unregisterGroup: delete from the group-id set. -/
def unregisterGroup (n : Node) (groupID : Nat) : Node :=
  { n with groupIDs := n.groupIDs.erase groupID }

/-- The coordinator state owned by the event-loop goroutine (struct state).
`heap` holds the proposal objects that Go shares by pointer; `groups` and
`nodes` store heap indices and ids only. -/
structure State : Type where
  nodeID : Nat
  groups : List (Nat × Group)
  nodes : List (Nat × Node)
  heap : List (Nat × Proposal)
  deriving DecidableEq, Repr

/-- External collaborators as pure oracles: GroupStorage(g).InitialState
(returning the ConfState node list), the optional StateMachine.AppliedIndex,
the embedded MultiNode's CreateGroup/RemoveGroup outcomes, and whether
Transport.Send to a destination succeeds. -/
structure Env : Type where
  initialState : Nat → Except String (List Nat)
  appliedIndex : Option (Nat → Except String Nat)
  mnCreateGroup : Nat → Except String Unit
  mnRemoveGroup : Nat → Except String Unit
  sendOK : Nat → Bool

/-! ## Coalesced heartbeat emission (state.coalescedHeartbeat) -/

/-- The (destination, request) pair state.coalescedHeartbeat hands to
Transport.Send for one peer: the sentinel group id and a MsgHeartbeat from
the local node. -/
def hbSend (self : Nat) (nid : Nat) : Nat × RaftMessageRequest :=
  (nid, { groupID := maxUint64,
          message := { From := self, To := nid, msgType := MsgType.MsgHeartbeat } })

/-- state.coalescedHeartbeat: one transport send per registered peer,
skipping the local node.  Returns the (destination, request) pairs handed to
Transport.Send. -/
def coalescedHeartbeat (s : State) : List (Nat × RaftMessageRequest) :=
  s.nodes.filterMap (fun kv =>
    if kv.1 = s.nodeID then none else some (hbSend s.nodeID kv.1))

theorem coalescedHeartbeat_fst (self : Nat) (l : List (Nat × Node)) :
    (l.filterMap (fun kv =>
        if kv.1 = self then none else some (hbSend self kv.1))).map Prod.fst =
      (l.map Prod.fst).filter (fun nid => nid ≠ self) := by
  induction l with
  | nil => rfl
  | cons kv rest ih =>
    by_cases h : kv.1 = self
    · simpa [List.filterMap_cons, h] using ih
    · simpa [List.filterMap_cons, h, hbSend] using ih

theorem coalescedHeartbeat_absent (self nid : Nat) (l : List (Nat × Node))
    (hmem : nid ∉ l.map Prod.fst) :
    (l.filterMap (fun kv =>
        if kv.1 = self then none else some (hbSend self kv.1))).filter
      (fun p => p.1 = nid) = [] := by
  induction l with
  | nil => rfl
  | cons kv rest ih =>
    simp only [List.map_cons, List.mem_cons] at hmem
    push_neg at hmem
    by_cases h : kv.1 = self
    · simpa [List.filterMap_cons, h] using ih hmem.2
    · simpa [List.filterMap_cons, h, hbSend, Ne.symm hmem.1] using ih hmem.2

theorem coalescedHeartbeat_once (self nid : Nat) (l : List (Nat × Node))
    (hnd : (l.map Prod.fst).Nodup) (hmem : nid ∈ l.map Prod.fst) (hne : nid ≠ self) :
    ((l.filterMap (fun kv =>
        if kv.1 = self then none else some (hbSend self kv.1))).filter
      (fun p => p.1 = nid)).length = 1 := by
  induction l with
  | nil => simp at hmem
  | cons kv rest ih =>
    simp only [List.map_cons, List.nodup_cons] at hnd
    by_cases hk : kv.1 = nid
    · have habs := coalescedHeartbeat_absent self nid rest (hk ▸ hnd.1)
      have hself : ¬ kv.1 = self := by rw [hk]; exact hne
      rw [List.filterMap_cons, if_neg hself, List.filter_cons]
      have hfst : (hbSend self kv.1).1 = nid := by simp [hbSend, hk]
      simp [hfst, habs]
    · have hmem' : nid ∈ rest.map Prod.fst := by
        rcases List.mem_cons.mp hmem with h | h
        · exact absurd h.symm hk
        · exact h
      by_cases hself : kv.1 = self
      · simpa [List.filterMap_cons, hself] using ih hnd.2 hmem'
      · simpa [List.filterMap_cons, hself, hbSend, hk] using ih hnd.2 hmem'

/-- Claim C2: each run of the coalesced-heartbeat emitter performs exactly one
transport send of a MsgHeartbeat per registered peer other than the local
node — From is the local node id, the group id is the sentinel MaxUint64 —
and the sends do not depend on the group table at all. -/
theorem coalescedHeartbeat_one_heartbeat_per_peer (s : State)
    (hnd : nodupKeys s.nodes) :
    ((coalescedHeartbeat s).map Prod.fst =
        (akeys s.nodes).filter (fun nid => nid ≠ s.nodeID)) ∧
    (∀ p ∈ coalescedHeartbeat s,
        p.2.message.msgType = MsgType.MsgHeartbeat ∧
        p.2.message.From = s.nodeID ∧ p.2.groupID = maxUint64 ∧
        p.2.message.To = p.1) ∧
    (∀ nid ∈ akeys s.nodes, nid ≠ s.nodeID →
        ((coalescedHeartbeat s).filter (fun p => p.1 = nid)).length = 1) ∧
    (∀ gs : List (Nat × Group),
        coalescedHeartbeat { s with groups := gs } = coalescedHeartbeat s) := by
  refine ⟨coalescedHeartbeat_fst s.nodeID s.nodes, ?_, ?_, fun gs => rfl⟩
  · intro p hp
    rcases List.mem_filterMap.mp hp with ⟨kv, _, hkv⟩
    by_cases h : kv.1 = s.nodeID
    · simp [h] at hkv
    · simp only [h, if_false, Option.some.injEq] at hkv
      subst hkv
      exact ⟨rfl, rfl, rfl, rfl⟩
  · intro nid hmem hne
    exact coalescedHeartbeat_once s.nodeID nid s.nodes hnd hmem hne

/-- A concrete coordinator state for exercising the C2 theorem: three
registered peers (one of them the local node) and a nonempty group table. -/
def exState2 : State :=
  ⟨1, [(7, ⟨0, 1, []⟩)], [(1, ⟨1, [7]⟩), (2, ⟨1, [7]⟩), (3, ⟨1, []⟩)], []⟩

/-- A concrete run of the C2 theorem on `exState2`. -/
theorem coalescedHeartbeat_one_heartbeat_per_peer_witness :
    nodupKeys exState2.nodes ∧
    (((coalescedHeartbeat exState2).map Prod.fst =
        (akeys exState2.nodes).filter (fun nid => nid ≠ exState2.nodeID)) ∧
      (∀ p ∈ coalescedHeartbeat exState2,
          p.2.message.msgType = MsgType.MsgHeartbeat ∧
          p.2.message.From = exState2.nodeID ∧ p.2.groupID = maxUint64 ∧
          p.2.message.To = p.1) ∧
      (∀ nid ∈ akeys exState2.nodes, nid ≠ exState2.nodeID →
          ((coalescedHeartbeat exState2).filter
            (fun p => p.1 = nid)).length = 1) ∧
      (∀ gs : List (Nat × Group),
          coalescedHeartbeat { exState2 with groups := gs } =
            coalescedHeartbeat exState2)) :=
  ⟨by decide, coalescedHeartbeat_one_heartbeat_per_peer exState2 (by decide)⟩

/-! ## Peer registration (state.addNode) -/

/-- state.addNode: reject if any group id is not in the group table, then
create the peer record if missing and register every group id into its
group set. -/
def addNode (s : State) (nid : Nat) (gids : List Nat) : Except String State :=
  if gids.all (fun g => (alookup s.groups g).isSome) then
    let nodes1 :=
      match alookup s.nodes nid with
      | some _ => s.nodes
      | none => ainsert s.nodes nid { refCount := 1, groupIDs := [] }
    Except.ok { s with nodes := amodify nodes1 nid (fun n => gids.foldl registerGroup n) }
  else Except.error "can not add invalid group"

/-! ## Inbound coalesced heartbeat fan-out (state.fanoutHeartbeat) -/

/-- The loop body of state.fanoutHeartbeat over the origin peer's group set:
for each group, look it up in the group table (a missing group is a nil
dereference in the source, embedded as `none`) and step the heartbeat into
it exactly when the table records the sender as that group's leader and the
sender is not the local node. -/
def fanoutSteps (s : State) (fromID : Nat) (msg : Message) :
    List Nat → Option (List (Nat × Message))
  | [] => some []
  | g :: rest =>
    match alookup s.groups g with
    | none => none
    | some gr =>
      if gr.leader = fromID ∧ fromID ≠ s.nodeID then
        (fanoutSteps s fromID msg rest).map (fun l => (g, msg) :: l)
      else fanoutSteps s fromID msg rest

/-- state.fanoutHeartbeat: returns the multiNode.Step calls performed
(group id, message) and the transport sends performed; `none` embeds the nil
dereference reached when a registered group id is missing from the group
table. -/
def fanoutHeartbeat (s : State) (req : RaftMessageRequest) :
    Option (List (Nat × Message) × List (Nat × RaftMessageRequest)) :=
  match alookup s.nodes req.message.From with
  | none =>
    some ([], [(req.message.From,
      { groupID := maxUint64,
        message := { From := s.nodeID, To := 0,
                     msgType := MsgType.MsgHeartbeatResp } })])
  | some originNode =>
    (fanoutSteps s req.message.From req.message originNode.groupIDs).map
      (fun l => (l, []))

/-- The predicate deciding whether a heartbeat from `fromID` is stepped into
group `g` on state `s`. -/
def fanoutCond (s : State) (fromID : Nat) (g : Nat) : Bool :=
  match alookup s.groups g with
  | some gr => decide (gr.leader = fromID ∧ fromID ≠ s.nodeID)
  | none => false

theorem fanoutSteps_eq_filter (s : State) (fromID : Nat) (msg : Message)
    (l : List Nat) (hall : ∀ g ∈ l, (alookup s.groups g).isSome) :
    fanoutSteps s fromID msg l =
      some ((l.filter (fanoutCond s fromID)).map (fun g => (g, msg))) := by
  induction l with
  | nil => rfl
  | cons g rest ih =>
    have hg := hall g (List.mem_cons_self g rest)
    have hrest : ∀ g ∈ rest, (alookup s.groups g).isSome :=
      fun x hx => hall x (List.mem_cons_of_mem g hx)
    rcases Option.isSome_iff_exists.mp hg with ⟨gr, hgr⟩
    by_cases hc : gr.leader = fromID ∧ fromID ≠ s.nodeID
    · simp [fanoutSteps, hgr, hc, ih hrest, List.filter_cons, fanoutCond]
    · simp [fanoutSteps, hgr, hc, ih hrest, List.filter_cons, fanoutCond]

/-- Claim C4: on an inbound coalesced heartbeat from peer f, if f is a
registered peer (and every group in f's group set is in the group table),
the heartbeat is stepped into exactly those groups of f's group set whose
table record names f as leader with f not the local node, nothing is sent,
and skipped groups see no effect; if f is unknown, no group is stepped and a
single bare MsgHeartbeatResp with the sentinel group id and From = local
node is sent back to f. -/
theorem fanoutHeartbeat_fanout_spec (s : State) (req : RaftMessageRequest) :
    (∀ n, alookup s.nodes req.message.From = some n →
      (∀ g ∈ n.groupIDs, (alookup s.groups g).isSome) →
      fanoutHeartbeat s req =
        some ((n.groupIDs.filter (fanoutCond s req.message.From)).map
                (fun g => (g, req.message)), [])) ∧
    (alookup s.nodes req.message.From = none →
      fanoutHeartbeat s req =
        some ([], [(req.message.From,
          { groupID := maxUint64,
            message := { From := s.nodeID, To := 0,
                         msgType := MsgType.MsgHeartbeatResp } })])) := by
  constructor
  · intro n hn hall
    simp [fanoutHeartbeat, hn,
      fanoutSteps_eq_filter s req.message.From req.message n.groupIDs hall]
  · intro hn
    simp [fanoutHeartbeat, hn]

/-- A concrete run of the C4 theorem: node 2 is registered with groups 7
(led by 2: stepped) and 8 (led by 3: skipped); node 9 is unknown and gets
the bare response. -/
theorem fanoutHeartbeat_fanout_spec_witness :
    (fanoutHeartbeat
        ⟨1, [(7, ⟨0, 2, []⟩), (8, ⟨0, 3, []⟩)], [(2, ⟨1, [7, 8]⟩)], []⟩
        ⟨maxUint64, ⟨2, 1, MsgType.MsgHeartbeat⟩⟩ =
      some ([(7, ⟨2, 1, MsgType.MsgHeartbeat⟩)], []) ∧
     fanoutHeartbeat
        ⟨1, [(7, ⟨0, 2, []⟩), (8, ⟨0, 3, []⟩)], [(2, ⟨1, [7, 8]⟩)], []⟩
        ⟨maxUint64, ⟨9, 1, MsgType.MsgHeartbeat⟩⟩ =
      some ([], [(9, ⟨maxUint64, ⟨1, 0, MsgType.MsgHeartbeatResp⟩⟩)])) := by
  constructor
  · have h := (fanoutHeartbeat_fanout_spec
        ⟨1, [(7, ⟨0, 2, []⟩), (8, ⟨0, 3, []⟩)], [(2, ⟨1, [7, 8]⟩)], []⟩
        ⟨maxUint64, ⟨2, 1, MsgType.MsgHeartbeat⟩⟩).1
        ⟨1, [7, 8]⟩ (by decide) (by decide)
    simpa using h
  · exact (fanoutHeartbeat_fanout_spec
        ⟨1, [(7, ⟨0, 2, []⟩), (8, ⟨0, 3, []⟩)], [(2, ⟨1, [7, 8]⟩)], []⟩
        ⟨maxUint64, ⟨9, 1, MsgType.MsgHeartbeat⟩⟩).2 (by decide)

/-! ## Proposal dispatch (state.propose) -/

/-- The state after state.propose records proposal `pid` in its group's
pending map (Go `g.pending[p.commandID] = p`). -/
def proposeInsert (s : State) (pid : Nat) (p : Proposal) (g : Group) : State :=
  { s with
      groups := ainsert s.groups p.groupID
        (Group.mk g.committedTerm g.leader (ainsert g.pending p.commandID pid)) }

/-- state.propose on the proposal object at heap index `pid`.  Returns the
new state, the signals sent on completion channels (heap index paired with
`some err` for an error, `none` for the nil success value) and the heap
indices whose propose thunk `fn` was invoked. -/
def propose (s : State) (pid : Nat) : State × List (Nat × Option String) × List Nat :=
  match alookup s.heap pid with
  | none => (s, [], [])
  | some p =>
    match alookup s.groups p.groupID with
    | none => (s, if p.hasCh then [(pid, some "group not found")] else [], [])
    | some g => (proposeInsert s pid p g, [], [pid])

/-! ## Group creation (state.createGroup) -/

/-- The loop in state.createGroup registering the group for every member of
the initial ConfState. -/
def addNodesForGroup (gid : Nat) : State → List Nat → Except String State
  | s, [] => Except.ok s
  | s, n :: rest =>
    match addNode s n [gid] with
    | Except.error e => Except.error e
    | Except.ok s' => addNodesForGroup gid s' rest

/-- The fresh group record state.createGroup inserts into the group table. -/
def freshGroup : Group := { committedTerm := 0, leader := 0, pending := [] }

/-- The state after state.createGroup inserts the fresh group record. -/
def withNewGroup (s : State) (gid : Nat) : State :=
  { s with groups := ainsert s.groups gid freshGroup }

/-- state.createGroup: idempotent on an existing group id; otherwise consult
InitialState, the optional state machine and the embedded MultiNode, insert
a fresh group record, register the ConfState members, and campaign exactly
when the group has one member and it is the local node.  The Bool records
whether a campaign was triggered. -/
def createGroup (env : Env) (s : State) (gid : Nat) : Except String (State × Bool) :=
  match alookup s.groups gid with
  | some _ => Except.ok (s, false)
  | none =>
    match env.initialState gid with
    | Except.error e => Except.error e
    | Except.ok csNodes =>
      match (match env.appliedIndex with
             | some f => f gid
             | none => Except.ok 0) with
      | Except.error e => Except.error e
      | Except.ok _ =>
        match env.mnCreateGroup gid with
        | Except.error e => Except.error e
        | Except.ok _ =>
          match addNodesForGroup gid (withNewGroup s gid) csNodes with
          | Except.error e => Except.error e
          | Except.ok s2 =>
            Except.ok (s2, decide (csNodes.length = 1 ∧ csNodes.head? = some s.nodeID))

/-! ## Group removal (state.removeGroup) -/

/-- The loop in state.removeGroup unregistering the group from every member
of the initial ConfState; `none` embeds the nil map access when a listed
node is not registered. -/
def unregisterNodes (gid : Nat) : State → List Nat → Option State
  | s, [] => some s
  | s, n :: rest =>
    match alookup s.nodes n with
    | none => none
    | some _ =>
      unregisterNodes gid
        { s with nodes := amodify s.nodes n (fun nd => unregisterGroup nd gid) } rest

/-- state.removeGroup: idempotent on a missing group id.  Returns the new
state and the values sent on the op's completion channel in order (`none` is
the nil success value).  On an InitialState error the source sends the error
but is missing a return, so it continues with the zero ConfState, deletes
the group and sends nil a second time. -/
def removeGroup (env : Env) (s : State) (gid : Nat) :
    Option (State × List (Option String)) :=
  match alookup s.groups gid with
  | none => some (s, [none])
  | some _ =>
    match env.mnRemoveGroup gid with
    | Except.error e => some (s, [some e])
    | Except.ok _ =>
      match env.initialState gid with
      | Except.error e =>
        some ({ s with groups := aerase s.groups gid }, [some e, none])
      | Except.ok csNodes =>
        match unregisterNodes gid s csNodes with
        | none => none
        | some s1 => some ({ s1 with groups := aerase s1.groups gid }, [none])

theorem addNode_groups_eq (s : State) (nid : Nat) (gids : List Nat) (s' : State)
    (h : addNode s nid gids = Except.ok s') : s'.groups = s.groups := by
  unfold addNode at h
  by_cases hall : gids.all (fun g => (alookup s.groups g).isSome)
  · simp only [hall, if_true] at h
    cases h
    rfl
  · simp [hall] at h

theorem addNodesForGroup_groups_eq (gid : Nat) (l : List Nat) (s s' : State)
    (h : addNodesForGroup gid s l = Except.ok s') : s'.groups = s.groups := by
  induction l generalizing s with
  | nil =>
    unfold addNodesForGroup at h
    cases h
    rfl
  | cons n rest ih =>
    unfold addNodesForGroup at h
    cases hn : addNode s n [gid] with
    | error e => rw [hn] at h; cases h
    | ok s1 =>
      rw [hn] at h
      rw [ih s1 h, addNode_groups_eq s n [gid] s1 hn]

theorem alookup_mem_akeys {κ α : Type} [DecidableEq κ]
    (m : List (κ × α)) (k : κ) (v : α) (h : alookup m k = some v) : k ∈ akeys m := by
  induction m with
  | nil => simp [alookup] at h
  | cons kv rest ih =>
    by_cases hk : kv.1 = k
    · simp [akeys, hk]
    · simp only [alookup, hk, if_false] at h
      have hmem := ih h
      simp only [akeys, List.map_cons, List.mem_cons]
      exact Or.inr (by simpa [akeys] using hmem)

theorem akeys_ainsert_mem {κ α : Type} [DecidableEq κ]
    (m : List (κ × α)) (k : κ) (v : α) (h : k ∈ akeys m) :
    akeys (ainsert m k v) = akeys m := by
  induction m with
  | nil => simp [akeys] at h
  | cons kv rest ih =>
    by_cases hk : kv.1 = k
    · simp [ainsert, hk, akeys]
    · have h2 : k ∈ kv.1 :: akeys rest := by
        simpa only [akeys, List.map_cons] using h
      have h' : k ∈ akeys rest := by
        rcases List.mem_cons.mp h2 with h1 | h1
        · exact absurd h1.symm hk
        · exact h1
      have hrec := ih h'
      simp only [ainsert, hk, if_false, akeys, List.map_cons]
      simpa [akeys] using congrArg (List.cons kv.1) hrec

theorem akeys_ainsert_notMem {κ α : Type} [DecidableEq κ]
    (m : List (κ × α)) (k : κ) (v : α) (h : k ∉ akeys m) :
    akeys (ainsert m k v) = akeys m ++ [k] := by
  induction m with
  | nil => simp [ainsert, akeys]
  | cons kv rest ih =>
    simp only [akeys, List.map_cons, List.mem_cons] at h
    push_neg at h
    simp only [ainsert, Ne.symm h.1, if_false, akeys, List.map_cons]
    have := ih (by simpa [akeys] using h.2)
    simpa [akeys] using congrArg (kv.1 :: ·) this

theorem alookup_none_notMem {κ α : Type} [DecidableEq κ]
    (m : List (κ × α)) (k : κ) (h : alookup m k = none) : k ∉ akeys m := by
  induction m with
  | nil => simp [akeys]
  | cons kv rest ih =>
    by_cases hk : kv.1 = k
    · simp [alookup, hk] at h
    · simp only [alookup, hk, if_false] at h
      simp only [akeys, List.map_cons, List.mem_cons]
      push_neg
      exact ⟨fun he => hk he.symm, by simpa [akeys] using ih h⟩

/-- Claim C7: dispatching a proposal whose group id is missing from the group
table fails the caller — an error is signaled on the completion channel when
one is attached, the propose thunk is not invoked, and the state is left
unchanged; if the group exists, the proposal is recorded in its pending map
under its command id and the thunk is invoked. -/
theorem propose_unknown_group_fails_caller (s : State) (pid : Nat) (p : Proposal)
    (hp : alookup s.heap pid = some p) :
    (alookup s.groups p.groupID = none →
      (propose s pid).1 = s ∧ (propose s pid).2.2 = [] ∧
      (p.hasCh = true → (propose s pid).2.1 = [(pid, some "group not found")])) ∧
    (∀ g, alookup s.groups p.groupID = some g →
      propose s pid = (proposeInsert s pid p g, [], [pid]) ∧
      alookup (propose s pid).1.groups p.groupID =
        some (Group.mk g.committedTerm g.leader
          (ainsert g.pending p.commandID pid))) := by
  constructor
  · intro hg
    refine ⟨?_, ?_, ?_⟩
    · simp [propose, hp, hg]
    · simp [propose, hp, hg]
    · intro hch
      simp [propose, hp, hg, hch]
  · intro g hg
    refine ⟨by simp [propose, hp, hg], ?_⟩
    simp [propose, hp, hg, proposeInsert, alookup_ainsert_self]

/-- A concrete coordinator state for exercising the C7 theorem: proposal 1
targets the missing group 6, proposal 2 the existing group 5. -/
def exState7 : State :=
  ⟨1, [(5, ⟨0, 0, []⟩)], [], [(1, ⟨6, "c", true⟩), (2, ⟨5, "d", true⟩)]⟩

/-- A concrete run of the C7 theorem on `exState7`, for both branches. -/
theorem propose_unknown_group_fails_caller_witness :
    ((propose exState7 1).1 = exState7 ∧ (propose exState7 1).2.2 = [] ∧
      (propose exState7 1).2.1 = [(1, some "group not found")]) ∧
    (propose exState7 2 =
      (proposeInsert exState7 2 ⟨5, "d", true⟩ ⟨0, 0, []⟩, [], [2])) := by
  constructor
  · have h := (propose_unknown_group_fails_caller exState7 1 ⟨6, "c", true⟩
      (by decide)).1 (by decide)
    exact ⟨h.1, h.2.1, h.2.2 rfl⟩
  · exact ((propose_unknown_group_fails_caller exState7 2 ⟨5, "d", true⟩
      (by decide)).2 ⟨0, 0, []⟩ (by decide)).1

/-- Claim C8: createGroup is idempotent — a call on a group id already in the
table returns success with the state unchanged; after any successful call
the group is registered, a second call succeeds changing nothing, and (for a
well-formed table) exactly one table entry exists for that id. -/
theorem createGroup_idempotent (env : Env) (s : State) (gid : Nat) :
    (∀ g, alookup s.groups gid = some g →
      createGroup env s gid = Except.ok (s, false)) ∧
    (∀ s' c, createGroup env s gid = Except.ok (s', c) →
      (alookup s'.groups gid).isSome = true ∧
      createGroup env s' gid = Except.ok (s', false) ∧
      (nodupKeys s.groups → (akeys s'.groups).count gid = 1)) := by
  constructor
  · intro g hg
    simp [createGroup, hg]
  · intro s' c h
    unfold createGroup at h
    cases hl : alookup s.groups gid with
    | some g =>
      rw [hl] at h
      simp only [Except.ok.injEq, Prod.mk.injEq] at h
      obtain ⟨rfl, -⟩ := h
      refine ⟨by simp [hl], by simp [createGroup, hl], fun hnd => ?_⟩
      exact List.count_eq_one_of_mem hnd (alookup_mem_akeys s.groups gid g hl)
    | none =>
      simp only [hl] at h
      cases hin : env.initialState gid with
      | error e => simp only [hin] at h; simp at h
      | ok csNodes =>
        simp only [hin] at h
        cases hai : (match env.appliedIndex with
                     | some f => f gid
                     | none => Except.ok 0) with
        | error e => simp only [hai] at h; simp at h
        | ok idx =>
          simp only [hai] at h
          cases hcr : env.mnCreateGroup gid with
          | error e => simp only [hcr] at h; simp at h
          | ok u =>
            simp only [hcr] at h
            cases han : addNodesForGroup gid (withNewGroup s gid) csNodes with
            | error e => simp only [han] at h; simp at h
            | ok s2 =>
              simp only [han] at h
              simp only [Except.ok.injEq, Prod.mk.injEq] at h
              obtain ⟨rfl, -⟩ := h
              have hgr : s2.groups = ainsert s.groups gid freshGroup :=
                addNodesForGroup_groups_eq gid csNodes (withNewGroup s gid) s2 han
              have hsome : alookup s2.groups gid = some freshGroup := by
                rw [hgr]; exact alookup_ainsert_self s.groups gid freshGroup
              refine ⟨by simp [hsome], by simp [createGroup, hsome], fun _ => ?_⟩
              have hnotm := alookup_none_notMem s.groups gid hl
              rw [hgr, akeys_ainsert_notMem s.groups gid freshGroup hnotm]
              simp [List.count_append, List.count_eq_zero.mpr hnotm]

/-- A storage/raft environment for the C8 and C9 witnesses: group 5 has the
single initial member 1, and the embedded raft calls succeed. -/
def exEnv : Env :=
  ⟨fun g => if g = 5 then Except.ok [1] else Except.error "no storage",
   none, fun _ => Except.ok (), fun _ => Except.ok (), fun _ => true⟩

/-- A concrete run of the C8 theorem: creating group 5 twice from the empty
state succeeds both times, leaving exactly one registered entry. -/
theorem createGroup_idempotent_witness :
    (alookup
        (createGroup exEnv (⟨1, [], [], []⟩ : State) 5 |>.toOption.map Prod.fst
          |>.getD ⟨1, [], [], []⟩).groups 5).isSome = true ∧
    createGroup exEnv ⟨1, [(5, freshGroup)], [(1, ⟨1, [5]⟩)], []⟩ 5 =
      Except.ok (⟨1, [(5, freshGroup)], [(1, ⟨1, [5]⟩)], []⟩, false) ∧
    (akeys (⟨1, [(5, freshGroup)], [(1, ⟨1, [5]⟩)], []⟩ : State).groups).count 5 = 1 := by
  have h := (createGroup_idempotent exEnv (⟨1, [], [], []⟩ : State) 5).2
    ⟨1, [(5, freshGroup)], [(1, ⟨1, [5]⟩)], []⟩ true rfl
  exact ⟨by decide, h.2.1, h.2.2 (by decide)⟩

/-- Claim C9: removeGroup is idempotent — removing a missing group id
succeeds with the nil error and leaves the state unchanged, and after any
call that completed with just the nil success value the group is gone and a
second call succeeds without error, changing nothing. -/
theorem removeGroup_idempotent (env : Env) (s : State) (gid : Nat) :
    (alookup s.groups gid = none → removeGroup env s gid = some (s, [none])) ∧
    (∀ s', removeGroup env s gid = some (s', [none]) →
      alookup s'.groups gid = none ∧
      removeGroup env s' gid = some (s', [none])) := by
  constructor
  · intro h
    simp [removeGroup, h]
  · intro s' h
    unfold removeGroup at h
    cases hl : alookup s.groups gid with
    | none =>
      rw [hl] at h
      simp only [Option.some.injEq, Prod.mk.injEq] at h
      obtain ⟨rfl, -⟩ := h
      exact ⟨hl, by simp [removeGroup, hl]⟩
    | some g =>
      simp only [hl] at h
      cases hmr : env.mnRemoveGroup gid with
      | error e => simp only [hmr] at h; simp at h
      | ok u =>
        simp only [hmr] at h
        cases hin : env.initialState gid with
        | error e => simp only [hin] at h; simp at h
        | ok csNodes =>
          simp only [hin] at h
          cases hun : unregisterNodes gid s csNodes with
          | none => simp only [hun] at h; simp at h
          | some s1 =>
            simp only [hun] at h
            simp only [Option.some.injEq, Prod.mk.injEq] at h
            obtain ⟨rfl, -⟩ := h
            refine ⟨?_, ?_⟩
            · simpa using alookup_aerase_self s1.groups gid
            · have : alookup (aerase s1.groups gid) gid = none :=
                alookup_aerase_self s1.groups gid
              simp [removeGroup, this]

/-- A concrete run of the C9 theorem: removing group 5 from a state that has
it succeeds, and removing it again succeeds with no further change; removing
it from a state that never had it also succeeds unchanged. -/
theorem removeGroup_idempotent_witness :
    (alookup
        (⟨1, [], [(1, ⟨1, []⟩)], []⟩ : State).groups 5 = none ∧
      removeGroup exEnv (⟨1, [], [(1, ⟨1, []⟩)], []⟩ : State) 5 =
        some (⟨1, [], [(1, ⟨1, []⟩)], []⟩, [none])) ∧
    removeGroup exEnv ⟨1, [], [(1, ⟨1, []⟩)], []⟩ 5 =
      some (⟨1, [], [(1, ⟨1, []⟩)], []⟩, [none]) := by
  have h := (removeGroup_idempotent exEnv
      (⟨1, [(5, freshGroup)], [(1, ⟨1, [5]⟩)], []⟩ : State) 5).2
      ⟨1, [], [(1, ⟨1, []⟩)], []⟩ rfl
  exact ⟨h, (removeGroup_idempotent exEnv
      (⟨1, [], [(1, ⟨1, []⟩)], []⟩ : State) 5).1 (by decide)⟩

/-! ## Leader events (state.maybeSendLeaderEvent) -/

/-- Events sent to the application (EventCommandCommitted,
EventMembershipChangeCommitted, EventLeaderElection). -/
inductive Event : Type
  | commandCommitted (groupID : Nat) (commandID : String) (index : Nat)
  | membershipChangeCommitted (groupID : Nat) (commandID : String) (index : Nat)
  | leaderElection (groupID : Nat) (leader : Nat) (term : Nat)
  deriving DecidableEq, Repr

/-- The term state.maybeSendLeaderEvent observes: the term of the last
committed entry of the ready, defaulting to the group's stored
committedTerm when there are none. -/
def observedTerm (g : Group) (r : Ready) : Nat :=
  match r.committedEntries.getLast? with
  | some e => e.term
  | none => g.committedTerm

/-- The group's leader after the SoftState of a ready is saved (the source
always records ready.SoftState.Lead when a SoftState is present). -/
def leaderAfterSoft (g : Group) (r : Ready) : Nat :=
  match r.softState with
  | some lead => lead
  | none => g.leader

/-- state.maybeSendLeaderEvent on one group record: save the SoftState
leader, and when the observed term differs from the stored committedTerm
and the leader is known, store the observed term, emit an EventLeaderElection
and re-submit every pending proposal.  Returns the updated group, the events
emitted and the heap indices of the re-submitted proposals. -/
def maybeSendLeaderEventG (gid : Nat) (g : Group) (r : Ready) :
    Group × List Event × List Nat :=
  if observedTerm g r ≠ g.committedTerm ∧ leaderAfterSoft g r ≠ 0 then
    (Group.mk (observedTerm g r) (leaderAfterSoft g r) g.pending,
     [Event.leaderElection gid (leaderAfterSoft g r) (observedTerm g r)],
     g.pending.map Prod.snd)
  else
    (Group.mk g.committedTerm (leaderAfterSoft g r) g.pending, [], [])

/-- The successive group records produced by processing a list of readys
through state.maybeSendLeaderEvent. -/
def runLeaderEvents (gid : Nat) (g : Group) : List Ready → List Group
  | [] => []
  | r :: rs =>
    let g' := (maybeSendLeaderEventG gid g r).1
    g' :: runLeaderEvents gid g' rs

/-- The embedded-raft contract along a trace of readys: the term of the last
committed entry never lies below the group's stored committedTerm (terms
along a raft log are non-decreasing and the committed prefix only grows). -/
def readysOK (gid : Nat) : Group → List Ready → Bool
  | _, [] => true
  | g, r :: rs =>
    decide (g.committedTerm ≤ observedTerm g r) &&
      readysOK gid (maybeSendLeaderEventG gid g r).1 rs

theorem maybeSendLeaderEventG_mono (gid : Nat) (g : Group) (r : Ready)
    (h : g.committedTerm ≤ observedTerm g r) :
    g.committedTerm ≤ (maybeSendLeaderEventG gid g r).1.committedTerm := by
  unfold maybeSendLeaderEventG
  by_cases hc : observedTerm g r ≠ g.committedTerm ∧ leaderAfterSoft g r ≠ 0
  · simpa [hc] using h
  · simp [hc]

/-- Claim C6: along any trace of readys satisfying the embedded-raft term
contract, the sequence of committedTerm values is non-decreasing; moreover
committedTerm changes only together with emitting a LeaderElection event,
and only when the observed term differs from the stored one and the group's
leader is known (non-zero). -/
theorem committedTerm_monotone (gid : Nat) (g : Group) (rs : List Ready)
    (h : readysOK gid g rs = true) :
    List.Chain' (fun a b => a ≤ b)
      (g.committedTerm :: (runLeaderEvents gid g rs).map Group.committedTerm) ∧
    (∀ g' : Group, ∀ r : Ready,
      ((maybeSendLeaderEventG gid g' r).1.committedTerm ≠ g'.committedTerm →
        (maybeSendLeaderEventG gid g' r).2.1 =
          [Event.leaderElection gid (leaderAfterSoft g' r) (observedTerm g' r)] ∧
        observedTerm g' r ≠ g'.committedTerm ∧ leaderAfterSoft g' r ≠ 0) ∧
      ((maybeSendLeaderEventG gid g' r).2.1 = [] →
        (maybeSendLeaderEventG gid g' r).1.committedTerm = g'.committedTerm)) := by
  constructor
  · induction rs generalizing g with
    | nil => simp [runLeaderEvents]
    | cons r rest ih =>
      unfold readysOK at h
      rw [Bool.and_eq_true] at h
      have h1 : g.committedTerm ≤ observedTerm g r := of_decide_eq_true h.1
      have hmono := maybeSendLeaderEventG_mono gid g r h1
      have htail := ih (maybeSendLeaderEventG gid g r).1 h.2
      unfold runLeaderEvents
      rw [List.map_cons, List.chain'_cons]
      exact ⟨hmono, htail⟩
  · intro g' r
    constructor
    · intro hne
      unfold maybeSendLeaderEventG at hne ⊢
      by_cases hc : observedTerm g' r ≠ g'.committedTerm ∧ leaderAfterSoft g' r ≠ 0
      · simp [hc]
      · simp [hc] at hne
    · intro hev
      unfold maybeSendLeaderEventG at hev ⊢
      by_cases hc : observedTerm g' r ≠ g'.committedTerm ∧ leaderAfterSoft g' r ≠ 0
      · simp [hc] at hev
      · simp [hc]

/-- A concrete run of the C6 theorem: the group starts at committedTerm 1
with leader 2, sees a ready committing an entry of term 3, then an empty
ready. -/
theorem committedTerm_monotone_witness :
    readysOK 9 ⟨1, 2, []⟩
        [⟨none, [⟨3, 4, "a"⟩], []⟩, ⟨none, [], []⟩] = true ∧
    List.Chain' (fun a b => a ≤ b)
      ((⟨1, 2, []⟩ : Group).committedTerm ::
        (runLeaderEvents 9 ⟨1, 2, []⟩
          [⟨none, [⟨3, 4, "a"⟩], []⟩, ⟨none, [], []⟩]).map Group.committedTerm) :=
  ⟨by decide,
   (committedTerm_monotone 9 ⟨1, 2, []⟩
      [⟨none, [⟨3, 4, "a"⟩], []⟩, ⟨none, [], []⟩] (by decide)).1⟩

/-! ## Outbound message routing (state.sendMessage) and the write-done path
(state.handleWriteResponse) -/

/-- state.sendMessage: if the destination peer is unknown, register it
lazily against the source group (an addNode error is logged and the state
left alone), then hand the envelope to Transport.Send.  Send-failure
reporting (ReportUnreachable, ReportSnapshot) only calls the external
multiNode and is not part of the coordinator state. -/
def sendMessage (s : State) (gid : Nat) (msg : Message) :
    State × List (Nat × RaftMessageRequest) :=
  let s1 :=
    match alookup s.nodes msg.To with
    | some _ => s
    | none =>
      match addNode s msg.To [gid] with
      | Except.ok s' => s'
      | Except.error _ => s
  (s1, [(msg.To, { groupID := gid, message := msg })])

/-- The send loop at the end of state.handleWriteResponse for one group's
ready, carrying the per-group noMoreHeartbeats set: MsgHeartbeat is dropped
unconditionally, MsgHeartbeatResp is dropped when its destination is
already in the set and otherwise recorded, and every surviving message goes
through sendMessage. -/
def processMessages (s : State) (gid : Nat) (noMore : List Nat) :
    List Message → State × List (Nat × RaftMessageRequest)
  | [] => (s, [])
  | m :: rest =>
    match m.msgType with
    | MsgType.MsgHeartbeat => processMessages s gid noMore rest
    | MsgType.MsgHeartbeatResp =>
      if m.To ∈ noMore then processMessages s gid noMore rest
      else
        let r1 := sendMessage s gid m
        let r2 := processMessages r1.1 gid (m.To :: noMore) rest
        (r2.1, r1.2 ++ r2.2)
    | _ =>
      let r1 := sendMessage s gid m
      let r2 := processMessages r1.1 gid noMore rest
      (r2.1, r1.2 ++ r2.2)

/-- Processing of one committed entry inside state.handleWriteResponse:
emit the commit event (processCommittedEntry), and if the decoded command id
is in the group's pending map, signal the proposal's channel only when it is
still non-nil, nil the channel field in the shared object, and delete the
entry from pending. -/
def commitEntryStep (s : State) (gid : Nat) (e : Entry) :
    State × List Event × List (Nat × Option String) :=
  let evs :=
    if e.commandID = "" then []
    else [Event.commandCommitted gid e.commandID e.index]
  match alookup s.groups gid with
  | none => (s, evs, [])
  | some g =>
    match alookup g.pending e.commandID with
    | none => (s, evs, [])
    | some pid =>
      match alookup s.heap pid with
      | none =>
        (State.mk s.nodeID
          (ainsert s.groups gid
            (Group.mk g.committedTerm g.leader (aerase g.pending e.commandID)))
          s.nodes s.heap, evs, [])
      | some p =>
        (State.mk s.nodeID
          (ainsert s.groups gid
            (Group.mk g.committedTerm g.leader (aerase g.pending e.commandID)))
          s.nodes
          (if p.hasCh then
            ainsert s.heap pid (Proposal.mk p.groupID p.commandID false)
          else s.heap),
         evs,
         if p.hasCh then [(pid, (none : Option String))] else [])

/-- The committed-entries loop of state.handleWriteResponse for one group. -/
def commitEntries (s : State) (gid : Nat) :
    List Entry → State × List Event × List (Nat × Option String)
  | [] => (s, [], [])
  | e :: rest =>
    let r1 := commitEntryStep s gid e
    let r2 := commitEntries r1.1 gid rest
    (r2.1, r1.2.1 ++ r2.2.1, r1.2.2 ++ r2.2.2)

/-- state.maybeSendLeaderEvent lifted to the coordinator state: the group
record is shared by pointer with the group table, so the update writes
through. -/
def maybeSendLeaderEventS (s : State) (gid : Nat) (r : Ready) :
    State × List Event × List Nat :=
  match alookup s.groups gid with
  | none => (s, [], [])
  | some g =>
    let res := maybeSendLeaderEventG gid g r
    (State.mk s.nodeID (ainsert s.groups gid res.1) s.nodes s.heap,
     res.2.1, res.2.2)

/-- The body of state.handleWriteResponse for one (group id, ready) pair: a
group missing from the table drops the stale write entirely; otherwise
process committed entries, then SoftState/leader changes, then send the
ready's messages with a fresh noMoreHeartbeats set.  Returns the state, the
events, the channel signals, the re-submitted proposal indices and the
transport sends. -/
def handleGroupReady (s : State) (gid : Nat) (r : Ready) :
    State × List Event × List (Nat × Option String) × List Nat ×
      List (Nat × RaftMessageRequest) :=
  match alookup s.groups gid with
  | none => (s, [], [], [], [])
  | some _ =>
    let r1 := commitEntries s gid r.committedEntries
    let r2 := maybeSendLeaderEventS r1.1 gid r
    let r3 := processMessages r2.1 gid [] r.messages
    (r3.1, r1.2.1 ++ r2.2.1, r1.2.2, r2.2.2, r3.2)

/-- state.handleWriteResponse: fold the per-group body over the write-done
ready batch. -/
def handleWriteResponse (s : State) :
    ReadyMap → State × List Event × List (Nat × Option String) × List Nat ×
      List (Nat × RaftMessageRequest)
  | [] => (s, [], [], [], [])
  | (gid, r) :: rest =>
    let r1 := handleGroupReady s gid r
    let r2 := handleWriteResponse r1.1 rest
    (r2.1, r1.2.1 ++ r2.2.1, r1.2.2.1 ++ r2.2.2.1, r1.2.2.2.1 ++ r2.2.2.2.1,
     r1.2.2.2.2 ++ r2.2.2.2.2)

/-- The transport sends performed by one call to state.handleWriteResponse. -/
def hwrSends (s : State) (rm : ReadyMap) : List (Nat × RaftMessageRequest) :=
  (handleWriteResponse s rm).2.2.2.2

/-- Whether a transport send carries a MsgHeartbeatResp addressed to `dest`. -/
def isRespTo (dest : Nat) (p : Nat × RaftMessageRequest) : Bool :=
  decide (p.2.message.msgType = MsgType.MsgHeartbeatResp ∧ p.2.message.To = dest)

theorem sendMessage_sends (s : State) (gid : Nat) (m : Message) :
    (sendMessage s gid m).2 = [(m.To, { groupID := gid, message := m })] := rfl

theorem processMessages_resp_budget (gid dest : Nat) (msgs : List Message) :
    ∀ (s : State) (noMore : List Nat),
      ((processMessages s gid noMore msgs).2.filter (isRespTo dest)).length ≤
        (if dest ∈ noMore then 0 else 1) := by
  induction msgs with
  | nil =>
    intro s noMore
    simp [processMessages]
  | cons m rest ih =>
    intro s noMore
    cases hm : m.msgType with
    | MsgHeartbeat =>
      simpa [processMessages, hm] using ih s noMore
    | MsgHeartbeatResp =>
      by_cases hin : m.To ∈ noMore
      · simpa [processMessages, hm, hin] using ih s noMore
      · have htail := ih (sendMessage s gid m).1 (m.To :: noMore)
        by_cases hd : m.To = dest
        · subst hd
          rw [if_pos (List.mem_cons_self m.To noMore)] at htail
          have hhead : (List.filter (isRespTo m.To)
              [(m.To, { groupID := gid, message := m })]).length = 1 := by
            simp [isRespTo, hm]
          simp only [processMessages, hm, sendMessage_sends, if_neg hin,
            List.filter_append, List.length_append, hhead]
          omega
        · have hbud : (dest ∈ m.To :: noMore) ↔ (dest ∈ noMore) := by
            constructor
            · intro h
              rcases List.mem_cons.mp h with h1 | h1
              · exact absurd h1.symm hd
              · exact h1
            · exact fun h => List.mem_cons_of_mem m.To h
          have hhead : (List.filter (isRespTo dest)
              [(m.To, { groupID := gid, message := m })]).length = 0 := by
            simp [isRespTo, hd]
          by_cases hdin : dest ∈ noMore
          · rw [if_pos (hbud.mpr hdin)] at htail
            simp only [processMessages, hm, sendMessage_sends, if_neg hin,
              List.filter_append, List.length_append, hhead, if_pos hdin]
            omega
          · rw [if_neg (fun hc => hdin (hbud.mp hc))] at htail
            simp only [processMessages, hm, sendMessage_sends, if_neg hin,
              List.filter_append, List.length_append, hhead, if_neg hdin]
            omega
    | MsgApp =>
      have htail := ih (sendMessage s gid m).1 noMore
      have hhead : (List.filter (isRespTo dest)
          [(m.To, { groupID := gid, message := m })]).length = 0 := by
        simp [isRespTo, hm]
      simp only [processMessages, hm, sendMessage_sends, List.filter_append,
        List.length_append, hhead]
      omega
    | MsgVote =>
      have htail := ih (sendMessage s gid m).1 noMore
      have hhead : (List.filter (isRespTo dest)
          [(m.To, { groupID := gid, message := m })]).length = 0 := by
        simp [isRespTo, hm]
      simp only [processMessages, hm, sendMessage_sends, List.filter_append,
        List.length_append, hhead]
      omega
    | MsgSnap =>
      have htail := ih (sendMessage s gid m).1 noMore
      have hhead : (List.filter (isRespTo dest)
          [(m.To, { groupID := gid, message := m })]).length = 0 := by
        simp [isRespTo, hm]
      simp only [processMessages, hm, sendMessage_sends, List.filter_append,
        List.length_append, hhead]
      omega

theorem processMessages_no_heartbeat (gid : Nat) (msgs : List Message) :
    ∀ (s : State) (noMore : List Nat),
      ∀ p ∈ (processMessages s gid noMore msgs).2,
        p.2.message.msgType ≠ MsgType.MsgHeartbeat := by
  induction msgs with
  | nil =>
    intro s noMore p hp
    simp [processMessages] at hp
  | cons m rest ih =>
    intro s noMore p hp
    cases hm : m.msgType with
    | MsgHeartbeat =>
      rw [show processMessages s gid noMore (m :: rest) =
          processMessages s gid noMore rest by
        simp [processMessages, hm]] at hp
      exact ih s noMore p hp
    | MsgHeartbeatResp =>
      by_cases hin : m.To ∈ noMore
      · rw [show processMessages s gid noMore (m :: rest) =
            processMessages s gid noMore rest by
          simp [processMessages, hm, hin]] at hp
        exact ih s noMore p hp
      · simp only [processMessages, hm, if_neg hin, sendMessage_sends,
          List.mem_append] at hp
        rcases hp with hp | hp
        · rcases List.mem_singleton.mp hp with rfl
          simp [hm]
        · exact ih (sendMessage s gid m).1 (m.To :: noMore) p hp
    | MsgApp =>
      simp only [processMessages, hm, sendMessage_sends, List.mem_append] at hp
      rcases hp with hp | hp
      · rcases List.mem_singleton.mp hp with rfl
        simp [hm]
      · exact ih (sendMessage s gid m).1 noMore p hp
    | MsgVote =>
      simp only [processMessages, hm, sendMessage_sends, List.mem_append] at hp
      rcases hp with hp | hp
      · rcases List.mem_singleton.mp hp with rfl
        simp [hm]
      · exact ih (sendMessage s gid m).1 noMore p hp
    | MsgSnap =>
      simp only [processMessages, hm, sendMessage_sends, List.mem_append] at hp
      rcases hp with hp | hp
      · rcases List.mem_singleton.mp hp with rfl
        simp [hm]
      · exact ih (sendMessage s gid m).1 noMore p hp

theorem handleGroupReady_sends (s : State) (gid : Nat) (r : Ready) :
    (handleGroupReady s gid r).2.2.2.2 = [] ∨
    ∃ s', (handleGroupReady s gid r).2.2.2.2 =
      (processMessages s' gid [] r.messages).2 := by
  unfold handleGroupReady
  cases hl : alookup s.groups gid with
  | none => exact Or.inl rfl
  | some g =>
    exact Or.inr ⟨(maybeSendLeaderEventS (commitEntries s gid
      r.committedEntries).1 gid r).1, rfl⟩

/-- Claim C3 (amended): within one call to handleWriteResponse, the
per-group send loop delivers at most one MsgHeartbeatResp to any given
destination for each group's ready (the noMoreHeartbeats set is created
afresh per group, so distinct groups of the same batch may each send one),
and no individual MsgHeartbeat is ever sent. -/
theorem handleWriteResponse_heartbeat_policy :
    (∀ (s : State) (gid dest : Nat) (r : Ready),
      (((handleGroupReady s gid r).2.2.2.2).filter (isRespTo dest)).length ≤ 1) ∧
    (∀ (s : State) (rm : ReadyMap), ∀ p ∈ hwrSends s rm,
      p.2.message.msgType ≠ MsgType.MsgHeartbeat) := by
  constructor
  · intro s gid dest r
    rcases handleGroupReady_sends s gid r with h | ⟨s', h⟩
    · simp [h]
    · rw [h]
      have := processMessages_resp_budget gid dest r.messages s' []
      simpa using this
  · intro s rm
    induction rm generalizing s with
    | nil =>
      intro p hp
      simp [hwrSends, handleWriteResponse] at hp
    | cons gr rest ih =>
      intro p hp
      obtain ⟨gid, r⟩ := gr
      simp only [hwrSends, handleWriteResponse, List.mem_append] at hp
      rcases hp with hp | hp
      · rcases handleGroupReady_sends s gid r with h | ⟨s', h⟩
        · rw [h] at hp
          simp at hp
        · rw [h] at hp
          exact processMessages_no_heartbeat gid r.messages s' [] p hp
      · exact ih (handleGroupReady s gid r).1 p hp

/-- Counterexample to claim C3 as stated: one write-done batch whose two
groups each carry a heartbeat response for peer 5 produces two
MsgHeartbeatResp sends to peer 5 in the same handleWriteResponse call,
because the dedupe set is per group, not per call. -/
theorem handleWriteResponse_resp_dedup_not_per_call :
    ((hwrSends ⟨1, [(1, ⟨0, 0, []⟩), (2, ⟨0, 0, []⟩)], [(5, ⟨1, [1]⟩)], []⟩
        [(1, ⟨none, [], [⟨1, 5, MsgType.MsgHeartbeatResp⟩]⟩),
         (2, ⟨none, [], [⟨1, 5, MsgType.MsgHeartbeatResp⟩]⟩)]).filter
      (isRespTo 5)).length = 2 := by decide

/-- A concrete run of the amended C3 theorem: a group ready with two
heartbeat responses for peer 5 sends only one, and a batch containing a
MsgApp send produces no MsgHeartbeat sends. -/
theorem handleWriteResponse_heartbeat_policy_witness :
    ((((handleGroupReady ⟨1, [(1, ⟨0, 0, []⟩)], [(5, ⟨1, [1]⟩)], []⟩ 1
        ⟨none, [], [⟨1, 5, MsgType.MsgHeartbeatResp⟩,
                    ⟨1, 5, MsgType.MsgHeartbeatResp⟩]⟩).2.2.2.2).filter
      (isRespTo 5)).length ≤ 1) ∧
    ((5, RaftMessageRequest.mk 1 ⟨1, 5, MsgType.MsgApp⟩) ∈
        hwrSends ⟨1, [(1, ⟨0, 0, []⟩)], [(5, ⟨1, [1]⟩)], []⟩
          [(1, ⟨none, [], [⟨1, 5, MsgType.MsgApp⟩]⟩)] ∧
      (RaftMessageRequest.mk 1 (⟨1, 5, MsgType.MsgApp⟩ : Message)).message.msgType ≠
        MsgType.MsgHeartbeat) := by
  constructor
  · exact handleWriteResponse_heartbeat_policy.1
      ⟨1, [(1, ⟨0, 0, []⟩)], [(5, ⟨1, [1]⟩)], []⟩ 1 5
      ⟨none, [], [⟨1, 5, MsgType.MsgHeartbeatResp⟩,
                  ⟨1, 5, MsgType.MsgHeartbeatResp⟩]⟩
  · refine ⟨by decide, ?_⟩
    exact handleWriteResponse_heartbeat_policy.2
      ⟨1, [(1, ⟨0, 0, []⟩)], [(5, ⟨1, [1]⟩)], []⟩
      [(1, ⟨none, [], [⟨1, 5, MsgType.MsgApp⟩]⟩)]
      (5, RaftMessageRequest.mk 1 ⟨1, 5, MsgType.MsgApp⟩) (by decide)

/-- Claim C5, evaluated at the failing input: propose's unknown-group path
signals the completion channel without nilling it, so the same proposal
object (heap index 1, channel still non-nil), re-queued twice by
leader-change re-proposal and dispatched after its group was removed, is
signaled twice over the process lifetime. -/
theorem proposal_channel_double_signal :
    (propose ⟨1, [], [], [(1, ⟨7, "c", true⟩)]⟩ 1).2.1 =
      [(1, some "group not found")] ∧
    (propose (propose ⟨1, [], [], [(1, ⟨7, "c", true⟩)]⟩ 1).1 1).2.1 =
      [(1, some "group not found")] := by decide

/-! ## The coordinator loop's pipeline state machine (state.start) -/

/-- Modelled from the spec: the write task (its source file is not among the
sources here) is a worker that lets the coordinator send on its ready
channel only while idle, then accepts exactly one batch on `in`, and sends
one acknowledgement on `out` after persisting that batch. -/
inductive WTask : Type
  | idle
  | writing (b : ReadyMap)
  deriving DecidableEq

/-- The pipeline-relevant loop state of state.start: the stashed ready
batch (`readyGroups`), the batch whose write is in flight
(`writingGroups`), and the write task's phase. -/
structure LoopState : Type where
  readyGroups : Option ReadyMap
  writingGroups : Option ReadyMap
  task : WTask
  deriving DecidableEq

/-- The raft-ready receive arm is armed: the loop sets `raftReady` from
multiNode.Ready() only in the else-if branch where no batch is stashed and
no write is in flight. -/
def raftReadyArmed (ls : LoopState) : Prop :=
  ls.readyGroups = none ∧ ls.writingGroups = none

/-- The write-ready send arm is armed: the loop sets `writeReady` from the
write task's ready channel exactly when a batch is stashed. -/
def writeReadyArmed (ls : LoopState) : Prop :=
  ls.readyGroups ≠ none

/-- One iteration of the select loop in state.start, restricted to the
pipeline variables.  `raftReady` consumes a new batch (arm armed only per
`raftReadyArmed`); `writeReady` fires when a batch is stashed and the write
task is idle to receive, handing the batch over (handleWriteReady);
`writeDone` fires when the write task acknowledges on `out`, after which
handleWriteResponse and Advance run on `writingGroups` and it is cleared;
every other select arm (inbound message, create/remove, proposal, tick,
callback) leaves the pipeline variables unchanged. -/
inductive LoopStep : LoopState → LoopState → Prop
  | raftReady (ls : LoopState) (b : ReadyMap) :
      raftReadyArmed ls →
      LoopStep ls ⟨some b, ls.writingGroups, ls.task⟩
  | writeReady (ls : LoopState) (b : ReadyMap) :
      ls.readyGroups = some b → ls.task = WTask.idle →
      LoopStep ls ⟨none, some b, WTask.writing b⟩
  | writeDone (ls : LoopState) (b : ReadyMap) :
      ls.task = WTask.writing b →
      LoopStep ls ⟨ls.readyGroups, none, WTask.idle⟩
  | otherArm (ls : LoopState) : LoopStep ls ls

/-- The loop states reachable from the start of state.start (no batch
stashed, no write in flight, write task idle). -/
inductive Reach : LoopState → Prop
  | init : Reach ⟨none, none, WTask.idle⟩
  | step (ls ls' : LoopState) : Reach ls → LoopStep ls ls' → Reach ls'

/-- The pipeline invariant: a batch is never simultaneously stashed and in
flight, and the write task is writing exactly the batch recorded in
`writingGroups`. -/
def pipelineInv (ls : LoopState) : Prop :=
  (ls.readyGroups = none ∨ ls.writingGroups = none) ∧
  (∀ b, ls.writingGroups = some b ↔ ls.task = WTask.writing b)

theorem reach_pipelineInv (ls : LoopState) (h : Reach ls) : pipelineInv ls := by
  induction h with
  | init =>
    exact ⟨Or.inl rfl, fun b => by simp⟩
  | step ls ls' hr hstep ih =>
    cases hstep with
    | raftReady b harm =>
      exact ⟨Or.inr harm.2, fun b' => ih.2 b'⟩
    | writeReady b hready htask =>
      exact ⟨Or.inl rfl, fun b' => by simp⟩
    | writeDone b htask =>
      exact ⟨Or.inr rfl, fun b' => by simp⟩
    | otherArm => exact ih

/-- Claim C1: in every reachable loop state the raft-ready and write-ready
arms are never both armed; when the raft-ready arm is armed there is no
stashed batch, no write in flight and the write task is idle (so Raft is
never asked for a new batch with a prior batch unsubmitted or
unacknowledged); when a batch is stashed no write is in flight; and the
write-done arm (which runs handleWriteResponse and Advance on
`writingGroups`) can fire exactly when the write task has acknowledged that
very batch. -/
theorem pipeline_single_batch (ls : LoopState) (h : Reach ls) :
    (¬ (raftReadyArmed ls ∧ writeReadyArmed ls)) ∧
    (raftReadyArmed ls →
      ls.readyGroups = none ∧ ls.writingGroups = none ∧ ls.task = WTask.idle) ∧
    (writeReadyArmed ls → ls.writingGroups = none) ∧
    (∀ b, ls.writingGroups = some b ↔ ls.task = WTask.writing b) := by
  have hinv := reach_pipelineInv ls h
  refine ⟨?_, ?_, ?_, hinv.2⟩
  · rintro ⟨⟨h1, -⟩, h2⟩
    exact h2 h1
  · rintro ⟨h1, h2⟩
    refine ⟨h1, h2, ?_⟩
    cases htask : ls.task with
    | idle => rfl
    | writing b =>
      have := (hinv.2 b).mpr htask
      rw [h2] at this
      cases this
  · intro hw
    rcases hinv.1 with h1 | h1
    · exact absurd h1 hw
    · exact h1

/-- A concrete run of the C1 theorem at the reachable state in which a
batch has been handed to the write task: reached by receiving a ready batch
and then firing the write-ready arm. -/
theorem pipeline_single_batch_witness :
    Reach ⟨none, some [], WTask.writing []⟩ ∧
    (¬ (raftReadyArmed ⟨none, some [], WTask.writing []⟩ ∧
        writeReadyArmed ⟨none, some [], WTask.writing []⟩)) ∧
    (∀ b, (⟨none, some [], WTask.writing []⟩ : LoopState).writingGroups = some b ↔
      (⟨none, some [], WTask.writing []⟩ : LoopState).task = WTask.writing b) := by
  have h1 : Reach ⟨some [], none, WTask.idle⟩ :=
    Reach.step _ _ Reach.init (LoopStep.raftReady _ [] ⟨rfl, rfl⟩)
  have h2 : Reach ⟨none, some [], WTask.writing []⟩ :=
    Reach.step _ _ h1 (LoopStep.writeReady _ [] rfl rfl)
  have h := pipeline_single_batch _ h2
  exact ⟨h2, h.1, h.2.2.2⟩

/-! ## Closure of peer group sets over the group table -/

/-- The implicit invariant behind the unguarded group-table lookups in the
heartbeat fan-out paths: every group id registered in any peer record is a
key of the group table. -/
def nodesGroupsClosed (s : State) : Bool :=
  s.nodes.all (fun kv => kv.2.groupIDs.all (fun g => (alookup s.groups g).isSome))

/-- A storage/raft environment for the C10 trace: group 1 has the single
initial member 1 and the embedded raft calls succeed. -/
def exEnv10 : Env :=
  ⟨fun g => if g = 1 then Except.ok [1] else Except.error "no storage",
   none, fun _ => Except.ok (), fun _ => Except.ok (), fun _ => true⟩

/-- Claim C10, evaluated at the failing input: node 1 creates group 1 with
initial member {1} only, lazily registers peer 2 for group 1 at send time,
and then removes group 1.  removeGroup unregisters only the InitialState
members, so peer 2 keeps group 1 in its group set while the group table no
longer has it: the closure invariant is broken and the unguarded lookup in
fanoutHeartbeat dereferences a missing group (a nil-pointer panic in the
source, `none` here) on the next heartbeat from peer 2. -/
theorem nodesGroups_closure_broken :
    createGroup exEnv10 ⟨1, [], [], []⟩ 1 =
      Except.ok (⟨1, [(1, freshGroup)], [(1, ⟨1, [1]⟩)], []⟩, true) ∧
    (sendMessage ⟨1, [(1, freshGroup)], [(1, ⟨1, [1]⟩)], []⟩ 1
        ⟨1, 2, MsgType.MsgApp⟩).1 =
      ⟨1, [(1, freshGroup)], [(1, ⟨1, [1]⟩), (2, ⟨1, [1]⟩)], []⟩ ∧
    nodesGroupsClosed
      ⟨1, [(1, freshGroup)], [(1, ⟨1, [1]⟩), (2, ⟨1, [1]⟩)], []⟩ = true ∧
    removeGroup exEnv10
      ⟨1, [(1, freshGroup)], [(1, ⟨1, [1]⟩), (2, ⟨1, [1]⟩)], []⟩ 1 =
      some (⟨1, [], [(1, ⟨1, []⟩), (2, ⟨1, [1]⟩)], []⟩, [none]) ∧
    nodesGroupsClosed ⟨1, [], [(1, ⟨1, []⟩), (2, ⟨1, [1]⟩)], []⟩ = false ∧
    fanoutHeartbeat ⟨1, [], [(1, ⟨1, []⟩), (2, ⟨1, [1]⟩)], []⟩
      ⟨maxUint64, ⟨2, 1, MsgType.MsgHeartbeat⟩⟩ = none :=
  ⟨rfl, rfl, rfl, rfl, rfl, rfl⟩

end Multiraft
